import Mathlib

/-!
Shallow embedding of the YourBank ledger core (backend/api.py, database/models.py).

Monetary amounts (SQL Numeric(14,2)) are modelled as integers counting
hundredths (paise), so Decimal addition, subtraction and comparison are exact
integer operations.  Timestamps are modelled as natural numbers with the
total order of datetimes; the posted_at column has a server-side default and
is therefore never NULL, so it is a plain Nat.  bcrypt hashing is modelled by
an injective tagging function: verify(pin, h) holds exactly when h is the
hash of pin, which is the only property the API layer uses.
-/

namespace YourBank

/-- AccountStatus enum of database/models.py. -/
inductive AccountStatus
  | APPROVAL_PENDING
  | ACTIVE
  | FROZEN
deriving DecidableEq, Repr

/-- TxType enum of database/models.py. -/
inductive TxType
  | DEPOSIT
  | TRANSFER
  | LOAN_DISBURSAL
  | EMI_PAYMENT
deriving DecidableEq, Repr

/-- TxStatus enum of database/models.py. -/
inductive TxStatus
  | PENDING
  | POSTED
  | FAILED
deriving DecidableEq, Repr

/-- RequestStatus enum of database/models.py. -/
inductive RequestStatus
  | PENDING
  | APPROVED
  | REJECTED
deriving DecidableEq, Repr

/-- Reference GL codes (models.py): GL_CASH_VAULT = "CASH_VAULT". -/
def GL_CASH_VAULT : String := "CASH_VAULT"

/-- Reference GL codes (models.py): GL_BANK_LOAN = "BANK_LOAN_GL". -/
def GL_BANK_LOAN : String := "BANK_LOAN_GL"

/-- Result of running Decimal(str(raw)) on a request field: the raw value was
a Python-falsy sentinel (absent, None, empty string, 0, "0"), an unparseable
string, or a value that parses to v (in hundredths). -/
inductive RawAmount
  | missing
  | bad
  | val (v : Int)
deriving DecidableEq, Repr

/-- Customer row (models.py): only the columns the ledger core reads. -/
structure Customer where
  id : Nat
  user_id : Nat
deriving DecidableEq, Repr

/-- Branch row (models.py). -/
structure Branch where
  id : Nat
  code : String
deriving DecidableEq, Repr

/-- AccountNumberSeq row (models.py): one row per branch, default serial
1000000001. -/
structure AccountNumberSeq where
  branch_id : Nat
  next_serial : Nat
deriving DecidableEq, Repr

/-- AccountRequest row (models.py): the columns ops_approve_request reads. -/
structure AccountRequest where
  id : Nat
  customer_id : Nat
  branch_id : Nat
  product : String
  status : RequestStatus
deriving DecidableEq, Repr

/-- Account row (models.py).  Note that there is no balance column: the
balance is always derived from the ledger entries. -/
structure Account where
  id : Nat
  customer_id : Nat
  branch_id : Nat
  account_no : String
  product : String
  status : AccountStatus
deriving DecidableEq, Repr

/-- InternetBanking row (models.py): per-account transaction-PIN credential. -/
structure InternetBanking where
  account_id : Nat
  pin_hash : String
deriving DecidableEq, Repr

/-- Transaction row (models.py). -/
structure Transaction where
  id : Nat
  type : TxType
  status : TxStatus
  created_by : Nat
  created_at : Nat
deriving DecidableEq, Repr

/-- LedgerEntry row (models.py): references exactly one of a customer account
or a general-ledger code, carries a DR or CR direction and an amount. -/
structure LedgerEntry where
  id : Nat
  transaction_id : Nat
  account_id : Option Nat
  gl_code : Option String
  dr_cr : String
  amount : Int
  posted_at : Nat
deriving DecidableEq, Repr

/-- LoanApplication row (models.py): the columns ops_loan_disburse reads. -/
structure LoanApplication where
  id : Nat
  customer_id : Nat
  amount : Int
  status : RequestStatus
deriving DecidableEq, Repr

/-- Database state: the tables touched by the ledger core, plus the
auto-increment counters and the current clock value used for server-side
timestamp defaults.  Tables not read or written by the ledger core
(loan detail/history, cards, SIP, SGB, KYC documents) are omitted since no
ledger operation depends on them. -/
structure DB where
  customers : List Customer
  branches : List Branch
  seqs : List AccountNumberSeq
  requests : List AccountRequest
  accounts : List Account
  ibs : List InternetBanking
  transactions : List Transaction
  entries : List LedgerEntry
  loan_apps : List LoanApplication
  next_tx_id : Nat
  next_entry_id : Nat
  next_account_id : Nat
  now : Nat
deriving DecidableEq, Repr

/-- Model of passlib bcrypt.hash: an injective tag of the PIN. -/
def hashPin (pin : String) : String := "$2b$" ++ pin

/-- Model of passlib bcrypt.verify(pin, h). -/
def bcryptVerify (pin h : String) : Bool := hashPin pin == h

/-- Replace the first element satisfying p (the ORM mutates the single object
returned by a filter_by(...).first() query). -/
def updateFirst (p : α → Bool) (f : α → α) : List α → List α
  | [] => []
  | a :: as => if p a then f a :: as else a :: updateFirst p f as

/-- Customer.query.filter_by(user_id=current_user.id).first() -/
def getCustomer (db : DB) (uid : Nat) : Option Customer :=
  db.customers.find? (fun c => c.user_id == uid)

/-- Account.query.get(account_id) -/
def findAccount (db : DB) (aid : Nat) : Option Account :=
  db.accounts.find? (fun a => a.id == aid)

/-- Account.query.filter_by(account_no=no).first() -/
def findAccountByNo (db : DB) (no : String) : Option Account :=
  db.accounts.find? (fun a => a.account_no == no)

/-- Transaction lookup by primary key (the join in account_transactions). -/
def findTx (db : DB) (tid : Nat) : Option Transaction :=
  db.transactions.find? (fun t => t.id == tid)

/-- AccountNumberSeq.query.filter_by(branch_id=bid).first() -/
def findSeq (db : DB) (bid : Nat) : Option AccountNumberSeq :=
  db.seqs.find? (fun s => s.branch_id == bid)

/-- AccountRequest.query.get(rid) -/
def findRequest (db : DB) (rid : Nat) : Option AccountRequest :=
  db.requests.find? (fun r => r.id == rid)

/-- Branch.query.get(bid) -/
def findBranch (db : DB) (bid : Nat) : Option Branch :=
  db.branches.find? (fun b => b.id == bid)

/-- InternetBanking.query.filter_by(account_id=aid).first() -/
def findIB (db : DB) (aid : Nat) : Option InternetBanking :=
  db.ibs.find? (fun i => i.account_id == aid)

/-- LoanApplication.query.get(app_id) -/
def findLoanApp (db : DB) (appId : Nat) : Option LoanApplication :=
  db.loan_apps.find? (fun l => l.id == appId)

/-- Helper _first_account_for_user of api.py (rows are inserted in
created_at order, so first match is the earliest account). -/
def firstAccountForUser (db : DB) (uid : Nat) (activeOnly : Bool) : Option Account :=
  match getCustomer db uid with
  | none => none
  | some c =>
      db.accounts.find? (fun a =>
        a.customer_id == c.id && (!activeOnly || a.status == AccountStatus.ACTIVE))

/-- Helper _require_any_account of api.py: some account on success, none for
the 409 "No account found" rejection. -/
def requireAnyAccount (db : DB) (uid : Nat) (activeOnly : Bool) : Option Account :=
  firstAccountForUser db uid activeOnly

/-- Sum of the amounts of the given account's entries with the given
direction: the SELECT COALESCE(SUM(amount),0) ... WHERE account_id = a AND
dr_cr = dc query of api.py. -/
def sumWhere (entries : List LedgerEntry) (accId : Nat) (dc : String) : Int :=
  ((entries.filter (fun e => e.account_id == some accId && e.dr_cr == dc)).map
    (fun e => e.amount)).sum

/-- Balance derivation of api.py (account_balance and every inline funds
check): credits minus debits over the account's ledger entries. -/
def account_balance (entries : List LedgerEntry) (accId : Nat) : Int :=
  sumWhere entries accId "CR" - sumWhere entries accId "DR"

/-- Sum of DEBIT amounts of one transaction's entries. -/
def txDebits (entries : List LedgerEntry) (tid : Nat) : Int :=
  ((entries.filter (fun e => e.transaction_id == tid && e.dr_cr == "DR")).map
    (fun e => e.amount)).sum

/-- Sum of CREDIT amounts of one transaction's entries. -/
def txCredits (entries : List LedgerEntry) (tid : Nat) : Int :=
  ((entries.filter (fun e => e.transaction_id == tid && e.dr_cr == "CR")).map
    (fun e => e.amount)).sum

/-- Double-entry invariant for a single transaction. -/
def txBalanced (entries : List LedgerEntry) (tid : Nat) : Prop :=
  txDebits entries tid = txCredits entries tid

/-- Double-entry invariant for the whole store. -/
def ledgerBalanced (db : DB) : Prop :=
  ∀ t ∈ db.transactions, txBalanced db.entries t.id

/-- Freshness of the transaction id counter: every persisted row uses an id
below the auto-increment counter, as the database guarantees. -/
def TxIdsFresh (db : DB) : Prop :=
  (∀ e ∈ db.entries, e.transaction_id < db.next_tx_id) ∧
  (∀ t ∈ db.transactions, t.id < db.next_tx_id)

/-- Shared posting step of the five posting sites of api.py: create one
POSTED Transaction, flush to obtain its id, then add one DR entry and one CR
entry of the same amount.  Returns the new state and the transaction id. -/
def postTwo (db : DB) (ty : TxType) (uid : Nat)
    (drAcc : Option Nat) (drGl : Option String)
    (crAcc : Option Nat) (crGl : Option String) (amt : Int) : DB × Nat :=
  let tid := db.next_tx_id
  let tx : Transaction :=
    { id := tid, type := ty, status := TxStatus.POSTED, created_by := uid,
      created_at := db.now }
  let e1 : LedgerEntry :=
    { id := db.next_entry_id, transaction_id := tid, account_id := drAcc,
      gl_code := drGl, dr_cr := "DR", amount := amt, posted_at := db.now }
  let e2 : LedgerEntry :=
    { id := db.next_entry_id + 1, transaction_id := tid, account_id := crAcc,
      gl_code := crGl, dr_cr := "CR", amount := amt, posted_at := db.now }
  ({ db with
      transactions := db.transactions ++ [tx],
      entries := db.entries ++ [e1, e2],
      next_tx_id := tid + 1,
      next_entry_id := db.next_entry_id + 2 }, tid)

/-- Validation failures of ops_post_deposit / ops_accept_cash_deposit. -/
inductive DepositErr
  | roleRequired
  | invalidAmount
  | amountNotPositive
  | accountNoRequired
  | accountNotFound
  | accountNotActive
deriving DecidableEq, Repr

/-- Success payload of the deposit endpoints. -/
structure DepositOk where
  transaction_id : Nat
  account_id : Nat
  account_no : String
  posted_amount : Int
  new_balance : Int
deriving DecidableEq, Repr

/-- Endpoint ops_post_deposit of api.py: employee cash deposit by account id.
Checks in source order: role, amount parse, amount > 0, account exists,
account ACTIVE; then posts DR CASH_VAULT / CR account and re-derives the
balance. -/
def ops_post_deposit (db : DB) (uid : Nat) (isEmp : Bool)
    (account_id : Option Nat) (amount : RawAmount) :
    Except DepositErr DepositOk × DB :=
  if !isEmp then (Except.error DepositErr.roleRequired, db)
  else
    match amount with
    | RawAmount.missing => (Except.error DepositErr.invalidAmount, db)
    | RawAmount.bad => (Except.error DepositErr.invalidAmount, db)
    | RawAmount.val amt =>
      if amt ≤ 0 then (Except.error DepositErr.amountNotPositive, db)
      else
        match account_id.bind (findAccount db) with
        | none => (Except.error DepositErr.accountNotFound, db)
        | some acc =>
          if acc.status != AccountStatus.ACTIVE then
            (Except.error DepositErr.accountNotActive, db)
          else
            let r := postTwo db TxType.DEPOSIT uid none (some GL_CASH_VAULT)
                       (some acc.id) none amt
            (Except.ok
              { transaction_id := r.2, account_id := acc.id,
                account_no := acc.account_no, posted_amount := amt,
                new_balance := account_balance r.1.entries acc.id }, r.1)

/-- Endpoint ops_accept_cash_deposit of api.py: teller cash deposit by
account number.  The amount field defaults to "0" (parses to 0 and is then
rejected as non-positive); checks in source order: role, amount parse,
amount > 0, account_no present, account exists, account ACTIVE. -/
def ops_accept_cash_deposit (db : DB) (uid : Nat) (isEmp : Bool)
    (account_no : String) (amount : RawAmount) :
    Except DepositErr DepositOk × DB :=
  if !isEmp then (Except.error DepositErr.roleRequired, db)
  else
    match (match amount with
           | RawAmount.missing => some (0 : Int)
           | RawAmount.bad => none
           | RawAmount.val v => some v) with
    | none => (Except.error DepositErr.invalidAmount, db)
    | some amt =>
      if amt ≤ 0 then (Except.error DepositErr.amountNotPositive, db)
      else if account_no == "" then (Except.error DepositErr.accountNoRequired, db)
      else
        match findAccountByNo db account_no with
        | none => (Except.error DepositErr.accountNotFound, db)
        | some acc =>
          if acc.status != AccountStatus.ACTIVE then
            (Except.error DepositErr.accountNotActive, db)
          else
            let r := postTwo db TxType.DEPOSIT uid none (some GL_CASH_VAULT)
                       (some acc.id) none amt
            (Except.ok
              { transaction_id := r.2, account_id := acc.id,
                account_no := acc.account_no, posted_amount := amt,
                new_balance := account_balance r.1.entries acc.id }, r.1)

/-- Validation failures of ops_approve_request. -/
inductive ApproveErr
  | roleRequired
  | invalidInitialDeposit
  | negativeInitialDeposit
  | requestNotFound
  | requestNotPending
  | branchNotFound
deriving DecidableEq, Repr

/-- Success payload of ops_approve_request. -/
structure ApproveOk where
  account_id : Nat
  account_no : String
  request_status : RequestStatus
  initial_deposit : Int
deriving DecidableEq, Repr

/-- Tail of ops_approve_request once the request, the branch, the sequence
row list and the serial to assign are known: bump the serial, create the
ACTIVE account numbered branch code ++ serial, post the initial deposit when
strictly positive, and mark the request APPROVED. -/
def approveFinish (db : DB) (uid : Nat) (req_id : Nat) (ar : AccountRequest)
    (br : Branch) (seqs0 : List AccountNumberSeq) (serial : Nat)
    (init_amt : Int) : Except ApproveErr ApproveOk × DB :=
  let seqs1 := updateFirst (fun s => s.branch_id == br.id)
    (fun s => { s with next_serial := serial + 1 }) seqs0
  let account_no := br.code ++ toString serial
  let acc : Account :=
    { id := db.next_account_id, customer_id := ar.customer_id,
      branch_id := br.id, account_no := account_no,
      product := ar.product, status := AccountStatus.ACTIVE }
  let db1 := { db with
    seqs := seqs1,
    accounts := db.accounts ++ [acc],
    next_account_id := db.next_account_id + 1 }
  let db2 :=
    if init_amt > 0 then
      (postTwo db1 TxType.DEPOSIT uid none (some GL_CASH_VAULT)
        (some acc.id) none init_amt).1
    else db1
  let db3 := { db2 with
    requests := updateFirst (fun r => r.id == req_id)
      (fun r => { r with status := RequestStatus.APPROVED }) db2.requests }
  (Except.ok
    { account_id := acc.id, account_no := account_no,
      request_status := RequestStatus.APPROVED,
      initial_deposit := init_amt }, db3)

/-- Endpoint ops_approve_request of api.py: approve a PENDING account
request.  Resolves the branch sequence row (creating it lazily at serial
1000000001), assigns account_no = branch code ++ serial, increments the
serial, creates the Account with status ACTIVE, posts the optional initial
deposit (DR CASH_VAULT / CR new account) when strictly positive, and marks
the request APPROVED. -/
def ops_approve_request (db : DB) (uid : Nat) (isEmp : Bool) (req_id : Nat)
    (init : RawAmount) : Except ApproveErr ApproveOk × DB :=
  if !isEmp then (Except.error ApproveErr.roleRequired, db)
  else
    match (match init with
           | RawAmount.missing => some (0 : Int)
           | RawAmount.bad => none
           | RawAmount.val v => some v) with
    | none => (Except.error ApproveErr.invalidInitialDeposit, db)
    | some init_amt =>
      if init_amt < 0 then (Except.error ApproveErr.negativeInitialDeposit, db)
      else
        match findRequest db req_id with
        | none => (Except.error ApproveErr.requestNotFound, db)
        | some ar =>
          if ar.status != RequestStatus.PENDING then
            (Except.error ApproveErr.requestNotPending, db)
          else
            match findBranch db ar.branch_id with
            | none => (Except.error ApproveErr.branchNotFound, db)
            | some br =>
              match findSeq db br.id with
              | some s => approveFinish db uid req_id ar br db.seqs s.next_serial init_amt
              | none => approveFinish db uid req_id ar br
                  (db.seqs ++ [{ branch_id := br.id, next_serial := 1000000001 }])
                  1000000001 init_amt

/-- Source/destination account selector of ib_transfer: lookup by account
number when from_account_no is supplied, else by id. -/
inductive AccRef
  | byNo (no : String)
  | byId (id : Nat)
deriving DecidableEq, Repr

/-- Account resolution of ib_transfer; none models an absent or unparseable
selector as well as a failed lookup. -/
def resolveRef (db : DB) : Option AccRef → Option Account
  | some (AccRef.byNo no) => findAccountByNo db no
  | some (AccRef.byId i) => findAccount db i
  | none => none

/-- Transfer request body of ib_transfer. -/
structure TransferReq where
  fromRef : Option AccRef
  toRef : Option AccRef
  amount : RawAmount
  pin : String
deriving DecidableEq, Repr

/-- Validation failures of ib_transfer, one per rejection site in source
order. -/
inductive TransferErr
  | noAccount
  | invalidAccounts
  | sameAccount
  | notActive
  | notAllowed
  | invalidAmount
  | amountNotPositive
  | badPinFormat
  | invalidPin
  | insufficientFunds (balance : Int)
deriving DecidableEq, Repr

/-- Success payload of ib_transfer. -/
structure TransferOk where
  transaction_id : Nat
  from_account_id : Nat
  to_account_id : Nat
  amount : Int
  new_balance : Int
deriving DecidableEq, Repr

/-- Check pin.isdigit() and len(pin) in (4, 6) of ib_transfer. -/
def pinFormatOk (pin : String) : Bool :=
  (pin.length == 4 || pin.length == 6) && pin.data.all Char.isDigit

/-- Amount resolution of ib_transfer: data.get("amount", "0"), so an absent
amount parses to 0; an unparseable one is a parse error. -/
def transferAmt : RawAmount → Option Int
  | RawAmount.missing => some 0
  | RawAmount.bad => none
  | RawAmount.val v => some v

/-- Endpoint ib_transfer of api.py.  Checks in source order: caller has some
account, both accounts resolve, distinct, both ACTIVE, caller owns the
source, amount parses and is > 0, PIN well-formed, IB credential present and
matching, sufficient funds; then posts DR source / CR destination and
re-derives the source balance. -/
def ib_transfer (db : DB) (uid : Nat) (req : TransferReq) :
    Except TransferErr TransferOk × DB :=
  match requireAnyAccount db uid false with
  | none => (Except.error TransferErr.noAccount, db)
  | some _ =>
    match resolveRef db req.fromRef, resolveRef db req.toRef with
    | some fa, some ta =>
      if fa.id == ta.id then (Except.error TransferErr.sameAccount, db)
      else if fa.status != AccountStatus.ACTIVE || ta.status != AccountStatus.ACTIVE then
        (Except.error TransferErr.notActive, db)
      else
        match getCustomer db uid with
        | none => (Except.error TransferErr.notAllowed, db)
        | some cust =>
          if fa.customer_id != cust.id then (Except.error TransferErr.notAllowed, db)
          else
            match transferAmt req.amount with
            | none => (Except.error TransferErr.invalidAmount, db)
            | some amt =>
              if amt ≤ 0 then (Except.error TransferErr.amountNotPositive, db)
              else if !pinFormatOk req.pin then
                (Except.error TransferErr.badPinFormat, db)
              else
                match findIB db fa.id with
                | none => (Except.error TransferErr.invalidPin, db)
                | some ib =>
                  if !bcryptVerify req.pin ib.pin_hash then
                    (Except.error TransferErr.invalidPin, db)
                  else
                    let bal := account_balance db.entries fa.id
                    if bal < amt then
                      (Except.error (TransferErr.insufficientFunds bal), db)
                    else
                      let r := postTwo db TxType.TRANSFER uid (some fa.id) none
                                 (some ta.id) none amt
                      (Except.ok
                        { transaction_id := r.2, from_account_id := fa.id,
                          to_account_id := ta.id, amount := amt,
                          new_balance := account_balance r.1.entries fa.id }, r.1)
    | _, _ => (Except.error TransferErr.invalidAccounts, db)

/-- Validation failures of ops_loan_disburse. -/
inductive DisburseErr
  | roleRequired
  | invalidRate
  | invalidTerm
  | appNotFound
  | loanNotApproved
  | accountNotFound
  | accountNotActive
  | invalidAmount
  | amountNotPositive
deriving DecidableEq, Repr

/-- Success payload of ops_loan_disburse. -/
structure DisburseOk where
  loan_app_id : Nat
  account_id : Nat
  account_no : String
  disbursed_amount : Int
deriving DecidableEq, Repr

/-- Endpoint ops_loan_disburse of api.py: disburse an APPROVED loan
application to an ACTIVE account, posting DR BANK_LOAN_GL / CR account.
The disburse amount falls back to the application amount when the request
field is falsy.  The LoanApplicationDetail / LoanAppHistory side tables it
also writes are outside the ledger model. -/
def ops_loan_disburse (db : DB) (uid : Nat) (isEmp : Bool) (loan_app_id : Nat)
    (account_no : String) (disburse_amount : RawAmount)
    (rate_pa : RawAmount) (term_months : RawAmount) :
    Except DisburseErr DisburseOk × DB :=
  if !isEmp then (Except.error DisburseErr.roleRequired, db)
  else if rate_pa == RawAmount.bad then (Except.error DisburseErr.invalidRate, db)
  else if term_months == RawAmount.bad then (Except.error DisburseErr.invalidTerm, db)
  else
    match findLoanApp db loan_app_id with
    | none => (Except.error DisburseErr.appNotFound, db)
    | some app =>
      if app.status != RequestStatus.APPROVED then
        (Except.error DisburseErr.loanNotApproved, db)
      else
        match findAccountByNo db account_no with
        | none => (Except.error DisburseErr.accountNotFound, db)
        | some acc =>
          if acc.status != AccountStatus.ACTIVE then
            (Except.error DisburseErr.accountNotActive, db)
          else
            match (match disburse_amount with
                   | RawAmount.missing => some app.amount
                   | RawAmount.bad => none
                   | RawAmount.val v => some v) with
            | none => (Except.error DisburseErr.invalidAmount, db)
            | some amt =>
              if amt ≤ 0 then (Except.error DisburseErr.amountNotPositive, db)
              else
                let r := postTwo db TxType.LOAN_DISBURSAL uid none
                           (some GL_BANK_LOAN) (some acc.id) none amt
                (Except.ok
                  { loan_app_id := app.id, account_id := acc.id,
                    account_no := acc.account_no, disbursed_amount := amt }, r.1)

/-- Limit handling of account_transactions: default 20 when the parameter is
absent or unparseable, then clamped by max(1, min(limit, 100)). -/
def clampLimit (limitArg : Option Int) : Nat :=
  (max 1 (min (limitArg.getD 20) 100)).toNat

/-- Display order of account_transactions: ORDER BY posted_at DESC, id DESC.
histRel a b holds when a may precede b in the page. -/
def histRel (a b : LedgerEntry × Transaction) : Prop :=
  b.1.posted_at < a.1.posted_at ∨
    (b.1.posted_at = a.1.posted_at ∧ b.1.id ≤ a.1.id)

instance : DecidableRel histRel := fun a b => by
  unfold histRel; infer_instance

instance : IsTotal (LedgerEntry × Transaction) histRel := by
  refine ⟨fun a b => ?_⟩
  unfold histRel
  rcases Nat.lt_trichotomy a.1.posted_at b.1.posted_at with h | h | h
  · exact Or.inr (Or.inl h)
  · rcases Nat.le_total b.1.id a.1.id with h2 | h2
    · exact Or.inl (Or.inr ⟨h.symm, h2⟩)
    · exact Or.inr (Or.inr ⟨h, h2⟩)
  · exact Or.inl (Or.inl h)

instance : IsTrans (LedgerEntry × Transaction) histRel := by
  refine ⟨fun a b c hab hbc => ?_⟩
  unfold histRel at *
  rcases hab with h1 | ⟨h1, h1'⟩
  · rcases hbc with h2 | ⟨h2, h2'⟩
    · exact Or.inl (h2.trans h1)
    · exact Or.inl (h2 ▸ h1)
  · rcases hbc with h2 | ⟨h2, h2'⟩
    · exact Or.inl (h1 ▸ h2)
    · exact Or.inr ⟨h2.trans h1, h2'.trans h1'⟩

/-- Row filter of the history query: the entry belongs to the queried
account and, when a cursor is supplied, was posted strictly earlier. -/
def rowMatches (accId : Nat) (before : Option Nat) (e : LedgerEntry) : Bool :=
  e.account_id == some accId &&
    (match before with
     | some b => decide (e.posted_at < b)
     | none => true)

/-- Row selection of account_transactions: join LedgerEntry with its
Transaction, filter by account and exclusive cursor, sort by posted_at
descending with id descending as tie-break, and take the first limit rows. -/
def rowsQuery (db : DB) (accId : Nat) (before : Option Nat) (limit : Nat) :
    List (LedgerEntry × Transaction) :=
  let joined := db.entries.filterMap
    (fun e => (findTx db e.transaction_id).map (fun t => (e, t)))
  let cand := joined.filter (fun p => rowMatches accId before p.1)
  (cand.insertionSort histRel).take limit

/-- Return value of the helper _format_counterparty of api.py: the 4-tuple
(is_acc, label, counterparty account_no, counterparty gl_code). -/
structure CpInfo where
  is_acc : Bool
  label : String
  acc_no : Option String
  gl : Option String
deriving DecidableEq, Repr

/-- Sibling filter of _format_counterparty: same transaction, and either a
different non-null customer account or a pure general-ledger entry. -/
def siblingPred (le s : LedgerEntry) : Bool :=
  s.transaction_id == le.transaction_id &&
    ((s.account_id.isSome && !(s.account_id == le.account_id)) ||
     (s.account_id.isNone && s.gl_code.isSome))

/-- ASCII uppercase of Python str.upper, character by character. -/
def strUpper (s : String) : String := String.mk (s.data.map Char.toUpper)

/-- Display label of a general-ledger counterparty. -/
def glLabel (code : Option String) : String :=
  if strUpper (code.getD "") == GL_CASH_VAULT then "CASH"
  else "GL:" ++ code.getD ""

/-- Secondary order of the sibling query of _format_counterparty: ORDER BY
id ASC. -/
def idLe (a b : LedgerEntry) : Prop := a.id ≤ b.id

instance : DecidableRel idLe := fun a b => by
  unfold idLe; infer_instance

instance : IsTotal LedgerEntry idLe :=
  ⟨fun a b => Nat.le_total a.id b.id⟩

instance : IsTrans LedgerEntry idLe :=
  ⟨fun _ _ _ hab hbc => Nat.le_trans hab hbc⟩

/-- Description of a chosen sibling entry in _format_counterparty: a resolved
customer account (its number), an account reference whose row is missing, or
a general-ledger bucket. -/
def cpInterp (db : DB) (s : LedgerEntry) : CpInfo :=
  match s.account_id with
  | some aid =>
    match findAccount db aid with
    | some other =>
        { is_acc := true, label := other.account_no,
          acc_no := some other.account_no, gl := none }
    | none => { is_acc := true, label := "Account", acc_no := none, gl := none }
  | none =>
    { is_acc := false, label := glLabel s.gl_code, acc_no := none,
      gl := s.gl_code }

/-- Helper _format_counterparty of api.py: pick the qualifying sibling entry
with the smallest id (ORDER BY id ASC, first row) and describe it. -/
def format_counterparty (db : DB) (le : LedgerEntry) : CpInfo :=
  let sibs := (db.entries.filter (siblingPred le)).insertionSort idLe
  match sibs.head? with
  | none => { is_acc := false, label := "N/A", acc_no := none, gl := none }
  | some s => cpInterp db s

/-- One row of the history response of account_transactions. -/
structure HistItem where
  posted_at : Nat
  type : TxType
  fromLabel : String
  toLabel : String
  from_account_no : Option String
  to_account_no : Option String
  dr_cr : String
  amount : Int
deriving DecidableEq, Repr

/-- Item construction of account_transactions: a CR entry means funds came
from the counterparty into this account, a DR entry the reverse. -/
def mkItem (accNo : String) (cp : CpInfo) (le : LedgerEntry) (tx : Transaction) :
    HistItem :=
  if strUpper le.dr_cr == "CR" then
    { posted_at := le.posted_at, type := tx.type,
      fromLabel := cp.label, toLabel := accNo,
      from_account_no := if cp.is_acc then cp.acc_no else none,
      to_account_no := some accNo,
      dr_cr := le.dr_cr, amount := le.amount }
  else
    { posted_at := le.posted_at, type := tx.type,
      fromLabel := accNo, toLabel := cp.label,
      from_account_no := some accNo,
      to_account_no := if cp.is_acc then cp.acc_no else none,
      dr_cr := le.dr_cr, amount := le.amount }

/-- Cursor computation of account_transactions: the posted_at timestamp of
the last selected row (posted_at is never NULL, so the created_at fallback
of the source never fires); empty only when no row was selected. -/
def nextBefore (rows : List (LedgerEntry × Transaction)) : Option Nat :=
  match rows.getLast? with
  | some p => some p.1.posted_at
  | none => none

/-- Response of account_transactions. -/
structure HistoryPage where
  items : List HistItem
  next_before : Option Nat
deriving DecidableEq, Repr

/-- Endpoint account_transactions of api.py: ownership gate, then the
paginated, counterparty-resolved history page. -/
def account_transactions (db : DB) (uid : Nat) (account_id : Nat)
    (before : Option Nat) (limitArg : Option Int) :
    Except String HistoryPage :=
  match findAccount db account_id, getCustomer db uid with
  | some acc, some cust =>
    if acc.customer_id != cust.id then Except.error "Account not found"
    else
      let rows := rowsQuery db account_id before (clampLimit limitArg)
      Except.ok
        { items := rows.map (fun p =>
            mkItem acc.account_no (format_counterparty db p.1) p.1 p.2),
          next_before := nextBefore rows }
  | _, _ => Except.error "Account not found"

/-- Independent restatement of the balance derivation: a single signed pass
over the raw entries, adding credits and subtracting debits of the account. -/
def balanceSpecFold (entries : List LedgerEntry) (accId : Nat) : Int :=
  entries.foldr
    (fun e s =>
      if e.account_id == some accId then
        if e.dr_cr == "CR" then s + e.amount
        else if e.dr_cr == "DR" then s - e.amount
        else s
      else s) 0

/-- One invocation of a ledger-posting endpoint, with its request data. -/
inductive Op
  | deposit (uid : Nat) (emp : Bool) (account_id : Option Nat) (amount : RawAmount)
  | acceptDeposit (uid : Nat) (emp : Bool) (account_no : String) (amount : RawAmount)
  | approve (uid : Nat) (emp : Bool) (req_id : Nat) (init : RawAmount)
  | transfer (uid : Nat) (req : TransferReq)
  | disburse (uid : Nat) (emp : Bool) (app_id : Nat) (account_no : String)
      (amount rate term : RawAmount)
deriving Repr

/-- State transition of one endpoint invocation. -/
def applyOp (db : DB) : Op → DB
  | Op.deposit uid emp aid amt => (ops_post_deposit db uid emp aid amt).2
  | Op.acceptDeposit uid emp no amt => (ops_accept_cash_deposit db uid emp no amt).2
  | Op.approve uid emp rid init => (ops_approve_request db uid emp rid init).2
  | Op.transfer uid req => (ib_transfer db uid req).2
  | Op.disburse uid emp appId no amt rate term =>
      (ops_loan_disburse db uid emp appId no amt rate term).2

/-- State after a sequence of endpoint invocations. -/
def applyOps (db : DB) : List Op → DB
  | [] => db
  | op :: ops => applyOps (applyOp db op) ops

/-- Precedence index of each ib_transfer rejection, following the fixed order
existence, distinctness, status, ownership, amount, PIN, funds. -/
def stageOf : TransferErr → Nat
  | TransferErr.noAccount => 0
  | TransferErr.invalidAccounts => 1
  | TransferErr.sameAccount => 2
  | TransferErr.notActive => 3
  | TransferErr.notAllowed => 4
  | TransferErr.invalidAmount => 5
  | TransferErr.amountNotPositive => 5
  | TransferErr.badPinFormat => 6
  | TransferErr.invalidPin => 6
  | TransferErr.insufficientFunds _ => 7

/-- Whether the j-th precondition of the transfer protocol is violated by the
given request against the given state, stated independently of the control
flow of ib_transfer: 1 existence, 2 distinctness, 3 status, 4 ownership,
5 amount validity, 6 PIN, 7 funds. -/
def stageViolated (db : DB) (uid : Nat) (req : TransferReq) : Nat → Bool
  | 1 => (resolveRef db req.fromRef).isNone || (resolveRef db req.toRef).isNone
  | 2 => match resolveRef db req.fromRef, resolveRef db req.toRef with
         | some fa, some ta => fa.id == ta.id
         | _, _ => false
  | 3 => match resolveRef db req.fromRef, resolveRef db req.toRef with
         | some fa, some ta =>
             fa.status != AccountStatus.ACTIVE || ta.status != AccountStatus.ACTIVE
         | _, _ => false
  | 4 => match resolveRef db req.fromRef with
         | some fa =>
             match getCustomer db uid with
             | none => true
             | some c => fa.customer_id != c.id
         | none => false
  | 5 => match transferAmt req.amount with
         | none => true
         | some a => decide (a ≤ 0)
  | 6 => !pinFormatOk req.pin ||
         (match resolveRef db req.fromRef with
          | some fa =>
              match findIB db fa.id with
              | none => true
              | some ib => !bcryptVerify req.pin ib.pin_hash
          | none => false)
  | 7 => match resolveRef db req.fromRef, transferAmt req.amount with
         | some fa, some a => decide (account_balance db.entries fa.id < a)
         | _, _ => false
  | _ => false

/-- Step 7 of the transfer protocol as executed by ib_transfer: the funds
check reads the balance derived from the state at check time. -/
def transferFundsCheck (db : DB) (fromId : Nat) (amt : Int) : Bool :=
  !(decide (account_balance db.entries fromId < amt))

/-- Step 8 of the transfer protocol as executed by ib_transfer: post DR
source / CR destination. -/
def transferPost (db : DB) (uid fromId toId : Nat) (amt : Int) : DB :=
  (postTwo db TxType.TRANSFER uid (some fromId) none (some toId) none amt).1

/-- Current serial of a branch: the value of its sequence row, or the lazy
starting value 1000000001 when no row exists yet. -/
def branchSerial (db : DB) (bid : Nat) : Nat :=
  match findSeq db bid with
  | some s => s.next_serial
  | none => 1000000001

/-- Request data of one approval invocation. -/
structure ApproveIn where
  uid : Nat
  isEmp : Bool
  req_id : Nat
  init : RawAmount
deriving Repr

/-- One approval invocation. -/
def approveStep (db : DB) (i : ApproveIn) : Except ApproveErr ApproveOk × DB :=
  ops_approve_request db i.uid i.isEmp i.req_id i.init

/-- Serials handed out for a given branch along a sequence of approval
invocations (each successful approval of a request of that branch records
the serial it was assigned). -/
def assignedSerials (db : DB) (bid : Nat) : List ApproveIn → List Nat
  | [] => []
  | i :: is =>
    let step := approveStep db i
    let rest := assignedSerials step.2 bid is
    match step.1 with
    | Except.ok _ =>
      match findRequest db i.req_id with
      | some ar => if ar.branch_id == bid then branchSerial db bid :: rest else rest
      | none => rest
    | Except.error _ => rest

/-- Numeric value of a parsed initial_deposit (0 for the falsy sentinels). -/
def initAmtOf : RawAmount → Int
  | RawAmount.missing => 0
  | RawAmount.bad => 0
  | RawAmount.val v => v

instance {ε α : Type} [DecidableEq ε] [DecidableEq α] :
    DecidableEq (Except ε α) := fun x y =>
  match x, y with
  | Except.ok a, Except.ok b =>
    if h : a = b then isTrue (by rw [h])
    else isFalse (by intro hh; cases hh; exact h rfl)
  | Except.error a, Except.error b =>
    if h : a = b then isTrue (by rw [h])
    else isFalse (by intro hh; cases hh; exact h rfl)
  | Except.ok _, Except.error _ => isFalse (by intro hh; cases hh)
  | Except.error _, Except.ok _ => isFalse (by intro hh; cases hh)

instance (db : DB) : Decidable (TxIdsFresh db) := by
  unfold TxIdsFresh; infer_instance

instance (db : DB) : Decidable (ledgerBalanced db) := by
  unfold ledgerBalanced txBalanced; infer_instance

/-- Concrete store used by the witnesses: two active accounts of two
customers in one branch, an activated PIN credential for account 1, and one
posted cash deposit of 100.00 giving account 1 a balance of 10000
hundredths. -/
def cdb : DB :=
  { customers := [{ id := 1, user_id := 1 }, { id := 2, user_id := 2 }],
    branches := [{ id := 1, code := "B001" }],
    seqs := [],
    requests := [{ id := 1, customer_id := 2, branch_id := 1,
                   product := "SAVINGS", status := RequestStatus.PENDING }],
    accounts :=
      [{ id := 1, customer_id := 1, branch_id := 1,
         account_no := "B0011000000001", product := "SAVINGS",
         status := AccountStatus.ACTIVE },
       { id := 2, customer_id := 2, branch_id := 1,
         account_no := "B0011000000002", product := "SAVINGS",
         status := AccountStatus.ACTIVE }],
    ibs := [{ account_id := 1, pin_hash := hashPin "1234" }],
    transactions := [{ id := 1, type := TxType.DEPOSIT,
                       status := TxStatus.POSTED, created_by := 3,
                       created_at := 1 }],
    entries :=
      [{ id := 1, transaction_id := 1, account_id := none,
         gl_code := some GL_CASH_VAULT, dr_cr := "DR", amount := 10000,
         posted_at := 1 },
       { id := 2, transaction_id := 1, account_id := some 1, gl_code := none,
         dr_cr := "CR", amount := 10000, posted_at := 1 }],
    loan_apps := [{ id := 1, customer_id := 1, amount := 50000,
                    status := RequestStatus.APPROVED }],
    next_tx_id := 2, next_entry_id := 3, next_account_id := 3, now := 5 }

/-- Multi-violation transfer request used by the C3 witness: source equals
destination, the PIN is malformed and the amount exceeds the balance; the
reported error is the distinctness failure, the earliest violated stage. -/
def wreq3 : TransferReq :=
  { fromRef := some (AccRef.byId 1), toRef := some (AccRef.byId 1),
    amount := RawAmount.val 999999, pin := "12" }

/-- Transfer request of the race scenario: 100.00 from account 1 to account
2 with the correct PIN, against a source balance of exactly 100.00. -/
def raceReq : TransferReq :=
  { fromRef := some (AccRef.byId 1), toRef := some (AccRef.byId 2),
    amount := RawAmount.val 10000, pin := "1234" }

/-- Approval result of the C6 witness. -/
def wr6 : ApproveOk :=
  { account_id := 3, account_no := "B0011000000001",
    request_status := RequestStatus.APPROVED, initial_deposit := 5000 }

/-- Approval result of the C10 witness (no initial deposit). -/
def wr10 : ApproveOk :=
  { account_id := 3, account_no := "B0011000000001",
    request_status := RequestStatus.APPROVED, initial_deposit := 0 }

/-- History page of cdb account 1 with default parameters, used by the C8
witness. -/
def cpg : HistoryPage :=
  match account_transactions cdb 1 1 none none with
  | Except.ok pg => pg
  | Except.error _ => { items := [], next_before := none }

/-- Store of the C9 counterexample: one transaction whose entries are the
queried account-1 CREDIT (id 1), a general-ledger DEBIT sibling (id 2) and a
customer-account DEBIT sibling on account 2 (id 3). -/
def db9 : DB :=
  { customers := [{ id := 1, user_id := 1 }, { id := 2, user_id := 2 }],
    branches := [{ id := 1, code := "B001" }],
    seqs := [],
    requests := [],
    accounts :=
      [{ id := 1, customer_id := 1, branch_id := 1, account_no := "ACC1",
         product := "SAVINGS", status := AccountStatus.ACTIVE },
       { id := 2, customer_id := 2, branch_id := 1, account_no := "ACC2",
         product := "SAVINGS", status := AccountStatus.ACTIVE }],
    ibs := [],
    transactions := [{ id := 1, type := TxType.DEPOSIT,
                       status := TxStatus.POSTED, created_by := 3,
                       created_at := 1 }],
    entries :=
      [{ id := 1, transaction_id := 1, account_id := some 1, gl_code := none,
         dr_cr := "CR", amount := 5000, posted_at := 1 },
       { id := 2, transaction_id := 1, account_id := none,
         gl_code := some GL_CASH_VAULT, dr_cr := "DR", amount := 2000,
         posted_at := 1 },
       { id := 3, transaction_id := 1, account_id := some 2, gl_code := none,
         dr_cr := "DR", amount := 3000, posted_at := 1 }],
    loan_apps := [],
    next_tx_id := 2, next_entry_id := 4, next_account_id := 3, now := 5 }

/-- Queried entry of the C9 counterexample. -/
def e9q : LedgerEntry :=
  { id := 1, transaction_id := 1, account_id := some 1, gl_code := none,
    dr_cr := "CR", amount := 5000, posted_at := 1 }

/-- Customer-account sibling of the C9 counterexample. -/
def e9acc : LedgerEntry :=
  { id := 3, transaction_id := 1, account_id := some 2, gl_code := none,
    dr_cr := "DR", amount := 3000, posted_at := 1 }

/-! Lemmas about the balance derivation and the double-entry invariant. -/

lemma sumWhere_cons (e : LedgerEntry) (es : List LedgerEntry) (accId : Nat)
    (dc : String) :
    sumWhere (e :: es) accId dc =
      (if e.account_id == some accId && e.dr_cr == dc then e.amount else 0) +
        sumWhere es accId dc := by
  unfold sumWhere
  cases h : (e.account_id == some accId && e.dr_cr == dc) <;>
    simp [List.filter_cons, h]

lemma txDebits_append (es l : List LedgerEntry) (tid : Nat) :
    txDebits (es ++ l) tid = txDebits es tid + txDebits l tid := by
  unfold txDebits; simp [List.filter_append]

lemma txCredits_append (es l : List LedgerEntry) (tid : Nat) :
    txCredits (es ++ l) tid = txCredits es tid + txCredits l tid := by
  unfold txCredits; simp [List.filter_append]

lemma txDebits_eq_zero (es : List LedgerEntry) (tid : Nat)
    (h : ∀ e ∈ es, e.transaction_id ≠ tid) : txDebits es tid = 0 := by
  unfold txDebits
  have : es.filter (fun e => e.transaction_id == tid && e.dr_cr == "DR") = [] := by
    refine List.filter_eq_nil_iff.mpr (fun e he => ?_)
    simp [h e he]
  simp [this]

lemma txCredits_eq_zero (es : List LedgerEntry) (tid : Nat)
    (h : ∀ e ∈ es, e.transaction_id ≠ tid) : txCredits es tid = 0 := by
  unfold txCredits
  have : es.filter (fun e => e.transaction_id == tid && e.dr_cr == "CR") = [] := by
    refine List.filter_eq_nil_iff.mpr (fun e he => ?_)
    simp [h e he]
  simp [this]

/-- The shared posting step keeps the freshness and double-entry invariants:
the two new entries belong to the new transaction and balance each other, and
no old transaction gains an entry. -/
lemma postTwo_preserves (db : DB) (ty : TxType) (uid : Nat)
    (drAcc : Option Nat) (drGl : Option String)
    (crAcc : Option Nat) (crGl : Option String) (amt : Int)
    (hF : TxIdsFresh db) (hB : ledgerBalanced db) :
    TxIdsFresh (postTwo db ty uid drAcc drGl crAcc crGl amt).1 ∧
      ledgerBalanced (postTwo db ty uid drAcc drGl crAcc crGl amt).1 := by
  obtain ⟨hFe, hFt⟩ := hF
  unfold postTwo TxIdsFresh ledgerBalanced txBalanced
  dsimp only
  refine ⟨⟨?_, ?_⟩, ?_⟩
  · intro e he
    simp only [List.mem_append, List.mem_cons, List.not_mem_nil, or_false] at he
    rcases he with he | he | he
    · exact Nat.lt_succ_of_lt (hFe e he)
    · subst he; exact Nat.lt_succ_self _
    · subst he; exact Nat.lt_succ_self _
  · intro t ht
    simp only [List.mem_append, List.mem_cons, List.not_mem_nil, or_false] at ht
    rcases ht with ht | ht
    · exact Nat.lt_succ_of_lt (hFt t ht)
    · subst ht; exact Nat.lt_succ_self _
  · intro t ht
    simp only [List.mem_append, List.mem_cons, List.not_mem_nil, or_false] at ht
    rcases ht with ht | ht
    · have hne : db.next_tx_id ≠ t.id := Ne.symm (Nat.ne_of_lt (hFt t ht))
      rw [txDebits_append, txCredits_append]
      have hD : txDebits
          [{ id := db.next_entry_id, transaction_id := db.next_tx_id,
             account_id := drAcc, gl_code := drGl, dr_cr := "DR", amount := amt,
             posted_at := db.now },
           { id := db.next_entry_id + 1, transaction_id := db.next_tx_id,
             account_id := crAcc, gl_code := crGl, dr_cr := "CR", amount := amt,
             posted_at := db.now }] t.id = 0 := by
        apply txDebits_eq_zero
        intro e he
        simp only [List.mem_cons, List.not_mem_nil, or_false] at he
        rcases he with he | he <;> (subst he; exact hne)
      have hC : txCredits
          [{ id := db.next_entry_id, transaction_id := db.next_tx_id,
             account_id := drAcc, gl_code := drGl, dr_cr := "DR", amount := amt,
             posted_at := db.now },
           { id := db.next_entry_id + 1, transaction_id := db.next_tx_id,
             account_id := crAcc, gl_code := crGl, dr_cr := "CR", amount := amt,
             posted_at := db.now }] t.id = 0 := by
        apply txCredits_eq_zero
        intro e he
        simp only [List.mem_cons, List.not_mem_nil, or_false] at he
        rcases he with he | he <;> (subst he; exact hne)
      rw [hD, hC]
      have hbt := hB t ht
      unfold txBalanced at hbt
      omega
    · subst ht
      rw [txDebits_append, txCredits_append]
      have hD0 : txDebits db.entries db.next_tx_id = 0 :=
        txDebits_eq_zero _ _ (fun e he => Nat.ne_of_lt (hFe e he))
      have hC0 : txCredits db.entries db.next_tx_id = 0 :=
        txCredits_eq_zero _ _ (fun e he => Nat.ne_of_lt (hFe e he))
      rw [hD0, hC0]
      simp [txDebits, txCredits, List.filter_cons]

/-- Both ledger invariants only read the entries, transactions and the
transaction id counter. -/
lemma ledgerOk_of_eq (db db' : DB) (he : db'.entries = db.entries)
    (ht : db'.transactions = db.transactions) (hn : db'.next_tx_id = db.next_tx_id)
    (h : TxIdsFresh db ∧ ledgerBalanced db) :
    TxIdsFresh db' ∧ ledgerBalanced db' := by
  unfold TxIdsFresh ledgerBalanced txBalanced at *
  rw [he, ht, hn]
  exact h

lemma ops_post_deposit_ledgerOk (db : DB) (uid : Nat) (emp : Bool)
    (aid : Option Nat) (amt : RawAmount) (h : TxIdsFresh db ∧ ledgerBalanced db) :
    TxIdsFresh (ops_post_deposit db uid emp aid amt).2 ∧
      ledgerBalanced (ops_post_deposit db uid emp aid amt).2 := by
  unfold ops_post_deposit
  repeat' split
  all_goals simp only
  all_goals first
    | exact h
    | exact postTwo_preserves _ _ _ _ _ _ _ _ h.1 h.2

lemma ops_accept_cash_deposit_ledgerOk (db : DB) (uid : Nat) (emp : Bool)
    (no : String) (amt : RawAmount) (h : TxIdsFresh db ∧ ledgerBalanced db) :
    TxIdsFresh (ops_accept_cash_deposit db uid emp no amt).2 ∧
      ledgerBalanced (ops_accept_cash_deposit db uid emp no amt).2 := by
  unfold ops_accept_cash_deposit
  repeat' split
  all_goals simp only
  all_goals first
    | exact h
    | exact postTwo_preserves _ _ _ _ _ _ _ _ h.1 h.2

lemma ib_transfer_ledgerOk (db : DB) (uid : Nat) (req : TransferReq)
    (h : TxIdsFresh db ∧ ledgerBalanced db) :
    TxIdsFresh (ib_transfer db uid req).2 ∧
      ledgerBalanced (ib_transfer db uid req).2 := by
  unfold ib_transfer
  repeat' split
  all_goals dsimp only
  all_goals repeat' split
  all_goals first
    | exact h
    | exact postTwo_preserves _ _ _ _ _ _ _ _ h.1 h.2

lemma ops_loan_disburse_ledgerOk (db : DB) (uid : Nat) (emp : Bool)
    (appId : Nat) (no : String) (amt rate term : RawAmount)
    (h : TxIdsFresh db ∧ ledgerBalanced db) :
    TxIdsFresh (ops_loan_disburse db uid emp appId no amt rate term).2 ∧
      ledgerBalanced (ops_loan_disburse db uid emp appId no amt rate term).2 := by
  unfold ops_loan_disburse
  repeat' split
  all_goals simp only
  all_goals first
    | exact h
    | exact postTwo_preserves _ _ _ _ _ _ _ _ h.1 h.2

lemma approveFinish_ledgerOk (db : DB) (uid rid : Nat) (ar : AccountRequest)
    (br : Branch) (seqs0 : List AccountNumberSeq) (serial : Nat)
    (init_amt : Int) (h : TxIdsFresh db ∧ ledgerBalanced db) :
    TxIdsFresh (approveFinish db uid rid ar br seqs0 serial init_amt).2 ∧
      ledgerBalanced (approveFinish db uid rid ar br seqs0 serial init_amt).2 := by
  unfold approveFinish
  dsimp only
  split
  · exact ledgerOk_of_eq _ _ rfl rfl rfl
      (postTwo_preserves _ _ _ _ _ _ _ _
        (ledgerOk_of_eq _ _ rfl rfl rfl h).1
        (ledgerOk_of_eq _ _ rfl rfl rfl h).2)
  · exact ledgerOk_of_eq _ _ rfl rfl rfl h

lemma ops_approve_request_ledgerOk (db : DB) (uid : Nat) (emp : Bool)
    (rid : Nat) (init : RawAmount) (h : TxIdsFresh db ∧ ledgerBalanced db) :
    TxIdsFresh (ops_approve_request db uid emp rid init).2 ∧
      ledgerBalanced (ops_approve_request db uid emp rid init).2 := by
  unfold ops_approve_request
  repeat' split
  all_goals first
    | exact h
    | exact approveFinish_ledgerOk _ _ _ _ _ _ _ _ h

lemma applyOp_ledgerOk (db : DB) (op : Op) (h : TxIdsFresh db ∧ ledgerBalanced db) :
    TxIdsFresh (applyOp db op) ∧ ledgerBalanced (applyOp db op) := by
  cases op with
  | deposit uid emp aid amt => exact ops_post_deposit_ledgerOk db uid emp aid amt h
  | acceptDeposit uid emp no amt => exact ops_accept_cash_deposit_ledgerOk db uid emp no amt h
  | approve uid emp rid init => exact ops_approve_request_ledgerOk db uid emp rid init h
  | transfer uid req => exact ib_transfer_ledgerOk db uid req h
  | disburse uid emp appId no amt rate term =>
      exact ops_loan_disburse_ledgerOk db uid emp appId no amt rate term h

/-- C1: every transaction persisted by any of the posting operations (cash
deposit, teller deposit, approval-time initial deposit, transfer, loan
disbursal) has equal DEBIT and CREDIT sums over its ledger entries, and the
invariant holds again after every individual post: starting from any state
whose id counter is fresh and whose store is balanced, any sequence of
endpoint invocations leaves every stored transaction balanced (in
particular the invariant holds after each prefix of the sequence). -/
theorem double_entry_invariant_preserved (db : DB)
    (hF : TxIdsFresh db) (hB : ledgerBalanced db) :
    ∀ ops : List Op, ledgerBalanced (applyOps db ops) := by
  intro ops
  induction ops generalizing db with
  | nil => exact hB
  | cons op ops ih =>
    have h' := applyOp_ledgerOk db op ⟨hF, hB⟩
    exact ih (applyOp db op) h'.1 h'.2

/-- C2: for every account and every ledger state, the balance operation
returns exactly the sum of the account's CREDIT amounts minus the sum of its
DEBIT amounts, recomputed from the raw entries in one independent signed
pass; the balance is a function of the ledger entries alone (the Account
record carries no balance field). -/
theorem balance_is_credits_minus_debits (entries : List LedgerEntry) (accId : Nat) :
    account_balance entries accId = balanceSpecFold entries accId := by
  induction entries with
  | nil => simp [account_balance, sumWhere, balanceSpecFold]
  | cons e es ih =>
    unfold account_balance at ih ⊢
    rw [sumWhere_cons, sumWhere_cons]
    have hfold : balanceSpecFold (e :: es) accId =
        (if e.account_id == some accId then
           if e.dr_cr == "CR" then balanceSpecFold es accId + e.amount
           else if e.dr_cr == "DR" then balanceSpecFold es accId - e.amount
           else balanceSpecFold es accId
         else balanceSpecFold es accId) := rfl
    rw [hfold]
    generalize sumWhere es accId "CR" = SC at ih ⊢
    generalize sumWhere es accId "DR" = SD at ih ⊢
    generalize balanceSpecFold es accId = B at ih ⊢
    cases hacc : (e.account_id == some accId) <;>
      cases hcr : (e.dr_cr == "CR") <;>
        cases hdr : (e.dr_cr == "DR") <;>
          simp only [hacc, hcr, hdr, Bool.and_true, Bool.and_false,
            Bool.true_and, Bool.false_and, if_true, if_false,
            Bool.false_eq_true, ite_true, ite_false] <;>
          first
            | omega
            | (rw [beq_iff_eq] at hcr hdr; rw [hcr] at hdr;
               exact absurd hdr (by decide))

/-- Witness for C1 at a concrete store and a concrete posting sequence. -/
theorem double_entry_invariant_preserved_witness :
    (TxIdsFresh cdb ∧ ledgerBalanced cdb) ∧
      ledgerBalanced (applyOps cdb
        [Op.deposit 3 true (some 1) (RawAmount.val 2500),
         Op.transfer 1 { fromRef := some (AccRef.byId 1),
                         toRef := some (AccRef.byId 2),
                         amount := RawAmount.val 3000, pin := "1234" }]) :=
  ⟨⟨by decide, by decide⟩,
    double_entry_invariant_preserved cdb (by decide) (by decide) _⟩

/-- C3: when the caller passes the preliminary has-an-account gate, the
error reported by a transfer request is the first violated check in the
fixed order existence (1), distinctness (2), status (3), ownership (4),
amount validity (5), PIN (6), funds (7): the reported stage is violated and
every earlier stage is satisfied; moreover a successful transfer violates no
stage at all. -/
theorem transfer_error_precedence (db : DB) (uid : Nat) (req : TransferReq)
    (hAcc : (requireAnyAccount db uid false).isSome = true) :
    (∀ e, (ib_transfer db uid req).1 = Except.error e →
        stageViolated db uid req (stageOf e) = true ∧
        ∀ j, j < stageOf e → stageViolated db uid req j = false) ∧
    (∀ ok, (ib_transfer db uid req).1 = Except.ok ok →
        ∀ j, j ≤ 7 → stageViolated db uid req j = false) := by
  obtain ⟨acc0, hacc0⟩ := Option.isSome_iff_exists.mp hAcc
  unfold ib_transfer
  rw [hacc0]
  dsimp only
  cases hf : resolveRef db req.fromRef with
  | none =>
    dsimp only
    refine ⟨fun e he => ?_, fun ok hok => by cases hok⟩
    cases he
    refine ⟨by simp [stageViolated, stageOf, hf], ?_⟩
    intro j hj
    simp only [stageOf] at hj
    interval_cases j
    simp [stageViolated]
  | some fa =>
    cases ht : resolveRef db req.toRef with
    | none =>
      dsimp only
      refine ⟨fun e he => ?_, fun ok hok => by cases hok⟩
      cases he
      refine ⟨by simp [stageViolated, stageOf, ht], ?_⟩
      intro j hj
      simp only [stageOf] at hj
      interval_cases j
      simp [stageViolated]
    | some ta =>
      dsimp only
      split
      case isTrue hsame =>
        refine ⟨fun e he => ?_, fun ok hok => by cases hok⟩
        cases he
        refine ⟨by simp [stageViolated, stageOf, hf, ht, hsame], ?_⟩
        intro j hj
        simp only [stageOf] at hj
        interval_cases j <;> simp [stageViolated, hf, ht]
      case isFalse hsame =>
      rw [Bool.not_eq_true] at hsame
      split
      case isTrue hact =>
        refine ⟨fun e he => ?_, fun ok hok => by cases hok⟩
        cases he
        refine ⟨by simp [stageViolated, stageOf, hf, ht, hact], ?_⟩
        intro j hj
        simp only [stageOf] at hj
        interval_cases j <;> simp [stageViolated, hf, ht, hsame]
      case isFalse hact =>
      rw [Bool.not_eq_true] at hact
      cases hc : getCustomer db uid with
      | none =>
        dsimp only
        refine ⟨fun e he => ?_, fun ok hok => by cases hok⟩
        cases he
        refine ⟨by simp [stageViolated, stageOf, hf, hc], ?_⟩
        intro j hj
        simp only [stageOf] at hj
        interval_cases j <;> simp [stageViolated, hf, ht, hsame, hact]
      | some cust =>
        dsimp only
        split
        case isTrue hown =>
          refine ⟨fun e he => ?_, fun ok hok => by cases hok⟩
          cases he
          refine ⟨by simp [stageViolated, stageOf, hf, hc, hown], ?_⟩
          intro j hj
          simp only [stageOf] at hj
          interval_cases j <;> simp [stageViolated, hf, ht, hsame, hact]
        case isFalse hown =>
        rw [Bool.not_eq_true] at hown
        cases hamt : transferAmt req.amount with
        | none =>
          dsimp only
          refine ⟨fun e he => ?_, fun ok hok => by cases hok⟩
          cases he
          refine ⟨by simp [stageViolated, stageOf, hamt], ?_⟩
          intro j hj
          simp only [stageOf] at hj
          interval_cases j <;>
            simp [stageViolated, hf, ht, hsame, hact, hc, hown]
        | some amt =>
          dsimp only
          split
          case isTrue hpos =>
            refine ⟨fun e he => ?_, fun ok hok => by cases hok⟩
            cases he
            refine ⟨by simp [stageViolated, stageOf, hamt, hpos], ?_⟩
            intro j hj
            simp only [stageOf] at hj
            interval_cases j <;>
              simp [stageViolated, hf, ht, hsame, hact, hc, hown]
          case isFalse hpos =>
          split
          case isTrue hpin =>
            refine ⟨fun e he => ?_, fun ok hok => by cases hok⟩
            cases he
            refine ⟨by simp [stageViolated, stageOf, hpin], ?_⟩
            intro j hj
            simp only [stageOf] at hj
            interval_cases j <;>
              simp [stageViolated, hf, ht, hsame, hact, hc, hown, hamt, hpos]
          case isFalse hpin =>
          rw [Bool.not_eq_true] at hpin
          cases hib : findIB db fa.id with
          | none =>
            dsimp only
            refine ⟨fun e he => ?_, fun ok hok => by cases hok⟩
            cases he
            refine ⟨by simp [stageViolated, stageOf, hf, hib], ?_⟩
            intro j hj
            simp only [stageOf] at hj
            interval_cases j <;>
              simp [stageViolated, hf, ht, hsame, hact, hc, hown, hamt, hpos]
          | some ib =>
            dsimp only
            split
            case isTrue hver =>
              refine ⟨fun e he => ?_, fun ok hok => by cases hok⟩
              cases he
              refine ⟨by simp [stageViolated, stageOf, hf, hib, hver], ?_⟩
              intro j hj
              simp only [stageOf] at hj
              interval_cases j <;>
                simp [stageViolated, hf, ht, hsame, hact, hc, hown, hamt, hpos]
            case isFalse hver =>
            rw [Bool.not_eq_true] at hver
            split
            case isTrue hbal =>
              refine ⟨fun e he => ?_, fun ok hok => by cases hok⟩
              cases he
              refine ⟨by simp [stageViolated, stageOf, hf, hamt, hbal], ?_⟩
              intro j hj
              simp only [stageOf] at hj
              interval_cases j <;>
                simp [stageViolated, hf, ht, hsame, hact, hc, hown, hamt,
                  hpos, hpin, hib, hver]
            case isFalse hbal =>
              constructor
              · intro e he
                dsimp only at he
                cases he
              · intro ok hok j hj
                interval_cases j <;>
                  simp [stageViolated, hf, ht, hsame, hact, hc, hown, hamt,
                    hpos, hpin, hib, hver, hbal]

/-- Witness for C3: on a concrete multi-violation request the reported error
is stage 2 (distinctness) and stages 0 and 1 are satisfied. -/
theorem transfer_error_precedence_witness :
    (requireAnyAccount cdb 1 false).isSome = true ∧
      (stageViolated cdb 1 wreq3 (stageOf TransferErr.sameAccount) = true ∧
        ∀ j, j < stageOf TransferErr.sameAccount →
          stageViolated cdb 1 wreq3 j = false) :=
  ⟨by decide,
    (transfer_error_precedence cdb 1 wreq3 (by decide)).1
      TransferErr.sameAccount (by decide)⟩

/-- C4: a transfer request that fails any validation check, including the
funds check, leaves the state (hence every Transaction, every Ledger Entry
and every account balance) completely unchanged, and the
insufficient-funds rejection reports the source balance derived from the
unchanged state. -/
theorem transfer_fail_no_mutation (db : DB) (uid : Nat) (req : TransferReq) :
    ∀ e, (ib_transfer db uid req).1 = Except.error e →
      (ib_transfer db uid req).2 = db ∧
      (∀ x, account_balance (ib_transfer db uid req).2.entries x =
        account_balance db.entries x) ∧
      (∀ b, e = TransferErr.insufficientFunds b →
        ∃ fa, resolveRef db req.fromRef = some fa ∧
          b = account_balance db.entries fa.id) := by
  unfold ib_transfer
  repeat' split
  all_goals dsimp only
  all_goals repeat' split
  all_goals intro e he
  all_goals try cases he
  all_goals refine ⟨rfl, fun x => rfl, fun b hb => ?_⟩
  all_goals try cases hb
  all_goals exact ⟨_, by assumption, rfl⟩

/-- Witness for C4: a concrete overdraft attempt is rejected with the
current balance and mutates nothing. -/
theorem transfer_fail_no_mutation_witness :
    (ib_transfer cdb 1
        { fromRef := some (AccRef.byId 1), toRef := some (AccRef.byId 2),
          amount := RawAmount.val 20000, pin := "1234" }).2 = cdb ∧
      ∃ fa, resolveRef cdb (some (AccRef.byId 1)) = some fa ∧
        (10000 : Int) = account_balance cdb.entries fa.id :=
  ⟨(transfer_fail_no_mutation cdb 1
      { fromRef := some (AccRef.byId 1), toRef := some (AccRef.byId 2),
        amount := RawAmount.val 20000, pin := "1234" }
      (TransferErr.insufficientFunds 10000) (by decide)).1,
   (transfer_fail_no_mutation cdb 1
      { fromRef := some (AccRef.byId 1), toRef := some (AccRef.byId 2),
        amount := RawAmount.val 20000, pin := "1234" }
      (TransferErr.insufficientFunds 10000) (by decide)).2.2 10000 rfl⟩

/-- Steps 7 and 8 of ib_transfer are exactly a funds check against the state
at check time followed by an unconditional dual post: once the preceding
validations pass, the endpoint is the composition of transferFundsCheck and
transferPost, with no lock or revalidation between them. -/
lemma ib_transfer_check_then_post (db : DB) (uid : Nat) (req : TransferReq)
    (fa ta : Account) (cust : Customer) (amt : Int) (ib : InternetBanking)
    (hacc : (requireAnyAccount db uid false).isSome = true)
    (hf : resolveRef db req.fromRef = some fa)
    (ht : resolveRef db req.toRef = some ta)
    (hne : (fa.id == ta.id) = false)
    (hact : (fa.status != AccountStatus.ACTIVE ||
      ta.status != AccountStatus.ACTIVE) = false)
    (hc : getCustomer db uid = some cust)
    (hown : (fa.customer_id != cust.id) = false)
    (hamt : transferAmt req.amount = some amt)
    (hpos : ¬ amt ≤ 0)
    (hpin : (!pinFormatOk req.pin) = false)
    (hib : findIB db fa.id = some ib)
    (hver : (!bcryptVerify req.pin ib.pin_hash) = false) :
    ib_transfer db uid req =
      (if transferFundsCheck db fa.id amt then
        (Except.ok
          { transaction_id :=
              (postTwo db TxType.TRANSFER uid (some fa.id) none (some ta.id)
                none amt).2,
            from_account_id := fa.id, to_account_id := ta.id, amount := amt,
            new_balance :=
              account_balance (transferPost db uid fa.id ta.id amt).entries
                fa.id },
          transferPost db uid fa.id ta.id amt)
      else
        (Except.error
          (TransferErr.insufficientFunds (account_balance db.entries fa.id)),
          db)) := by
  obtain ⟨acc0, hacc0⟩ := Option.isSome_iff_exists.mp hacc
  unfold ib_transfer transferFundsCheck transferPost
  rw [hacc0]
  dsimp only
  rw [hf, ht]
  dsimp only
  simp only [hne, hact, Bool.false_eq_true, if_false]
  rw [hc]
  dsimp only
  simp only [hown, Bool.false_eq_true, if_false]
  rw [hamt]
  dsimp only
  rw [if_neg hpos]
  simp only [hpin, Bool.false_eq_true, if_false]
  rw [hib]
  dsimp only
  simp only [hver, Bool.false_eq_true, if_false]
  by_cases hlt : account_balance db.entries fa.id < amt
  · rw [if_pos hlt, if_neg (by simp [hlt])]
  · rw [if_neg hlt, if_pos (by simp [hlt])]

/-- C5: the code does not close the balance-check/post race.  With two
concurrent transfers of 100.00 from account 1 (balance exactly 100.00), the
interleaving check1, check2, post1, post2 lets both funds checks pass
against the initial state (the second check is stale), both transfers post,
and the source account ends overdrawn at -100.00 — the claimed
one-success-one-rejection outcome is violated by the unlocked
check-then-post sequence of ib_transfer. -/
theorem concurrent_transfers_both_succeed :
    transferFundsCheck cdb 1 10000 = true ∧
      (ib_transfer cdb 1 raceReq).1 =
        Except.ok { transaction_id := 2, from_account_id := 1,
                    to_account_id := 2, amount := 10000, new_balance := 0 } ∧
      account_balance
        (transferPost (ib_transfer cdb 1 raceReq).2 1 1 2 10000).entries 1 =
        -10000 := by
  decide

lemma find?_updateFirst_self {α : Type} (p : α → Bool) (f : α → α)
    (hpf : ∀ a, p (f a) = p a) :
    ∀ l : List α, (updateFirst p f l).find? p = (l.find? p).map f := by
  intro l
  induction l with
  | nil => rfl
  | cons a as ih =>
    by_cases hp : p a = true
    · unfold updateFirst
      rw [if_pos hp]
      rw [List.find?_cons_of_pos _ ((hpf a).trans hp),
        List.find?_cons_of_pos _ hp]
      rfl
    · unfold updateFirst
      rw [if_neg hp]
      rw [List.find?_cons_of_neg, List.find?_cons_of_neg]
      · exact ih
      · simpa using hp
      · simpa [hpf a] using hp

lemma find?_updateFirst_other {α : Type} (p q : α → Bool) (f : α → α)
    (h1 : ∀ a, p a = true → q a = false)
    (h2 : ∀ a, p a = true → q (f a) = false) :
    ∀ l : List α, (updateFirst p f l).find? q = l.find? q := by
  intro l
  induction l with
  | nil => rfl
  | cons a as ih =>
    by_cases hp : p a = true
    · unfold updateFirst
      rw [if_pos hp]
      rw [List.find?_cons_of_neg, List.find?_cons_of_neg]
      · simp [h1 a hp]
      · simp [h2 a hp]
    · unfold updateFirst
      rw [if_neg hp]
      by_cases hq : q a = true
      · rw [List.find?_cons_of_pos _ hq, List.find?_cons_of_pos _ hq]
      · rw [List.find?_cons_of_neg, List.find?_cons_of_neg]
        · exact ih
        · simpa using hq
        · simpa using hq

/-- Every rejection of ops_approve_request leaves the state unchanged. -/
lemma ops_approve_request_error (db : DB) (uid : Nat) (emp : Bool)
    (rid : Nat) (init : RawAmount) (e : ApproveErr) (db' : DB)
    (h : ops_approve_request db uid emp rid init = (Except.error e, db')) :
    db' = db := by
  unfold ops_approve_request at h
  repeat' split at h
  all_goals first
    | (cases h; rfl)
    | (unfold approveFinish at h; dsimp only at h; split at h <;> cases h)

/-- Full description of the state produced by the approval tail. -/
lemma approveFinish_spec (db : DB) (uid rid : Nat) (ar : AccountRequest)
    (br : Branch) (seqs0 : List AccountNumberSeq) (serial : Nat)
    (init_amt : Int) (r : ApproveOk) (db' : DB)
    (h : approveFinish db uid rid ar br seqs0 serial init_amt =
      (Except.ok r, db')) :
    r.account_no = br.code ++ toString serial ∧
    r.initial_deposit = init_amt ∧
    db'.seqs = updateFirst (fun s => s.branch_id == br.id)
      (fun s => { s with next_serial := serial + 1 }) seqs0 ∧
    db'.accounts = db.accounts ++
      [{ id := db.next_account_id, customer_id := ar.customer_id,
         branch_id := br.id, account_no := br.code ++ toString serial,
         product := ar.product, status := AccountStatus.ACTIVE }] ∧
    r.account_id = db.next_account_id ∧
    db'.requests = updateFirst (fun q => q.id == rid)
      (fun q => { q with status := RequestStatus.APPROVED }) db.requests ∧
    (init_amt ≤ 0 → db'.entries = db.entries ∧
      db'.transactions = db.transactions) ∧
    (0 < init_amt →
      db'.transactions = db.transactions ++
        [{ id := db.next_tx_id, type := TxType.DEPOSIT,
           status := TxStatus.POSTED, created_by := uid,
           created_at := db.now }] ∧
      db'.entries = db.entries ++
        [{ id := db.next_entry_id, transaction_id := db.next_tx_id,
           account_id := none, gl_code := some GL_CASH_VAULT, dr_cr := "DR",
           amount := init_amt, posted_at := db.now },
         { id := db.next_entry_id + 1, transaction_id := db.next_tx_id,
           account_id := some db.next_account_id, gl_code := none,
           dr_cr := "CR", amount := init_amt, posted_at := db.now }]) := by
  unfold approveFinish at h
  dsimp only at h
  split at h
  case isTrue hpos =>
    cases h
    refine ⟨rfl, rfl, rfl, rfl, rfl, rfl, ?_, ?_⟩
    · intro h0; exact absurd hpos (by omega)
    · intro _; exact ⟨rfl, rfl⟩
  case isFalse hpos =>
    cases h
    refine ⟨rfl, rfl, rfl, rfl, rfl, rfl, ?_, ?_⟩
    · intro _; exact ⟨rfl, rfl⟩
    · intro h0; exact absurd h0 (by omega)

/-- A successful approval assigns branch code ++ current serial and bumps
exactly that branch's serial by one. -/
lemma ops_approve_request_serial (db : DB) (uid : Nat) (emp : Bool)
    (rid : Nat) (init : RawAmount) (r : ApproveOk) (db' : DB)
    (h : ops_approve_request db uid emp rid init = (Except.ok r, db')) :
    ∃ ar br, findRequest db rid = some ar ∧
      findBranch db ar.branch_id = some br ∧
      r.account_no = br.code ++ toString (branchSerial db br.id) ∧
      branchSerial db' br.id = branchSerial db br.id + 1 ∧
      ∀ b, b ≠ br.id → branchSerial db' b = branchSerial db b := by
  unfold ops_approve_request at h
  repeat' split at h
  all_goals try (simp only [Prod.mk.injEq] at h)
  all_goals try (exact Except.noConfusion h.1)
  case isFalse.h_2.isFalse.h_2.isFalse.h_2.h_1 hemp x3 amt hamt hneg x2 ar har hpend x1 br hbr x0 s hs =>
    obtain ⟨hno, _, hseqs, _, _, _, _, _⟩ := approveFinish_spec _ _ _ _ _ _ _ _ _ _ h
    refine ⟨ar, br, har, hbr, ?_, ?_, ?_⟩
    · rw [hno]; unfold branchSerial; rw [hs]
    · unfold branchSerial findSeq
      rw [hseqs, find?_updateFirst_self (fun (q : AccountNumberSeq) => q.branch_id == br.id)
        (fun (q : AccountNumberSeq) => { q with next_serial := s.next_serial + 1 }) (fun a => rfl)]
      unfold findSeq at hs
      rw [hs]
      rfl
    · intro b hb
      unfold branchSerial findSeq
      rw [hseqs, find?_updateFirst_other (fun (q : AccountNumberSeq) => q.branch_id == br.id)
        (fun (q : AccountNumberSeq) => q.branch_id == b)
        (fun (q : AccountNumberSeq) => { q with next_serial := s.next_serial + 1 })]
      · intro a ha
        simp only [beq_iff_eq] at ha ⊢
        rw [ha]
        simp [Ne.symm hb]
      · intro a ha
        simp only [beq_iff_eq] at ha ⊢
        rw [ha]
        simp [Ne.symm hb]
  case isFalse.h_2.isFalse.h_2.isFalse.h_2.h_2 hemp x3 amt hamt hneg x2 ar har hpend x1 br hbr x0 hs =>
    obtain ⟨hno, _, hseqs, _, _, _, _, _⟩ := approveFinish_spec _ _ _ _ _ _ _ _ _ _ h
    have hrow : List.find? (fun (s : AccountNumberSeq) => s.branch_id == br.id)
        (db.seqs ++ [{ branch_id := br.id, next_serial := 1000000001 }]) =
        some { branch_id := br.id, next_serial := 1000000001 } := by
      rw [List.find?_append]
      unfold findSeq at hs
      rw [hs]
      simp
    refine ⟨ar, br, har, hbr, ?_, ?_, ?_⟩
    · rw [hno]; unfold branchSerial; rw [hs]
    · unfold branchSerial findSeq
      unfold findSeq at hs
      rw [hseqs, find?_updateFirst_self (fun (q : AccountNumberSeq) => q.branch_id == br.id)
        (fun (q : AccountNumberSeq) => { q with next_serial := 1000000001 + 1 }) (fun a => rfl)]
      rw [hrow, hs]
      rfl
    · intro b hb
      unfold branchSerial findSeq
      rw [hseqs, find?_updateFirst_other (fun (q : AccountNumberSeq) => q.branch_id == br.id)
        (fun (q : AccountNumberSeq) => q.branch_id == b)
        (fun (q : AccountNumberSeq) => { q with next_serial := 1000000001 + 1 })]
      · rw [List.find?_append]
        have : List.find? (fun (s : AccountNumberSeq) => s.branch_id == b)
            [{ branch_id := br.id, next_serial := 1000000001 }] = none := by
          simp [Ne.symm hb]
        rw [this]
        simp
      · intro a ha
        simp only [beq_iff_eq] at ha ⊢
        rw [ha]
        simp [Ne.symm hb]
      · intro a ha
        simp only [beq_iff_eq] at ha ⊢
        rw [ha]
        simp [Ne.symm hb]

/-- No approval ever decreases a branch serial. -/
lemma branchSerial_mono (db : DB) (i : ApproveIn) (bid : Nat) :
    branchSerial db bid ≤ branchSerial (approveStep db i).2 bid := by
  rcases hstep : approveStep db i with ⟨res, db2⟩
  dsimp only
  cases res with
  | error e =>
    have hdb : db2 = db :=
      ops_approve_request_error db i.uid i.isEmp i.req_id i.init e db2 hstep
    rw [hdb]
  | ok r =>
    obtain ⟨ar, br, _, _, _, hup, hother⟩ :=
      ops_approve_request_serial db i.uid i.isEmp i.req_id i.init r db2 hstep
    by_cases hb : bid = br.id
    · subst hb; rw [hup]; omega
    · rw [hother bid hb]

/-- Every serial recorded along a run is at least the branch serial at the
start of the run. -/
lemma assignedSerials_lb (ins : List ApproveIn) : ∀ (db : DB) (bid : Nat),
    ∀ x ∈ assignedSerials db bid ins, branchSerial db bid ≤ x := by
  induction ins with
  | nil => intro db bid x hx; simp [assignedSerials] at hx
  | cons i is ih =>
    intro db bid x hx
    unfold assignedSerials at hx
    dsimp only at hx
    rcases hstep : approveStep db i with ⟨res, db2⟩
    rw [hstep] at hx
    try dsimp only at hx
    have hmono : branchSerial db bid ≤ branchSerial db2 bid := by
      have := branchSerial_mono db i bid
      rw [hstep] at this
      exact this
    cases res with
    | error e => exact le_trans hmono (ih db2 bid x hx)
    | ok r =>
      cases hfr : findRequest db i.req_id with
      | none =>
        rw [hfr] at hx
        exact le_trans hmono (ih db2 bid x hx)
      | some ar =>
        rw [hfr] at hx
        dsimp only at hx
        by_cases hbid : (ar.branch_id == bid) = true
        · rw [if_pos hbid] at hx
          rcases List.mem_cons.mp hx with h1 | h1
          · rw [h1]
          · exact le_trans hmono (ih db2 bid x h1)
        · rw [if_neg hbid] at hx
          exact le_trans hmono (ih db2 bid x hx)

/-- The serials recorded for a fixed branch along any run of approvals are
strictly increasing. -/
lemma assignedSerials_pairwise (ins : List ApproveIn) : ∀ (db : DB) (bid : Nat),
    List.Pairwise (fun a b => a < b) (assignedSerials db bid ins) := by
  induction ins with
  | nil => intro db bid; simp [assignedSerials]
  | cons i is ih =>
    intro db bid
    unfold assignedSerials
    dsimp only
    rcases hstep : approveStep db i with ⟨res, db2⟩
    dsimp only
    cases res with
    | error e => exact ih db2 bid
    | ok r =>
      cases hfr : findRequest db i.req_id with
      | none => exact ih db2 bid
      | some ar =>
        dsimp only
        by_cases hbid : (ar.branch_id == bid) = true
        · rw [if_pos hbid]
          refine List.Pairwise.cons ?_ (ih db2 bid)
          intro x hx
          have hlb := assignedSerials_lb is db2 bid x hx
          obtain ⟨ar', br, hfind, hbr, _, hup, _⟩ :=
            ops_approve_request_serial db i.uid i.isEmp i.req_id i.init r db2
              hstep
          have harr : ar = ar' := Option.some.inj (hfr.symm.trans hfind)
          have hbrid : (br.id == ar'.branch_id) = true := by
            unfold findBranch at hbr
            have h2 := List.find?_some
              (p := fun (b : Branch) => b.id == ar'.branch_id) hbr
            simpa using h2
          have hbid2 : br.id = bid := by
            rw [beq_iff_eq] at hbrid hbid
            rw [hbrid, ← harr, hbid]
          rw [hbid2] at hup
          rw [hup] at hlb
          omega
        · rw [if_neg hbid]
          exact ih db2 bid

/-- C6: a successful approval assigns account number branch code ++ current
branch serial, where the serial is 1000000001 when the branch's sequence row
does not exist yet (lazy initialization), and the approval increments
exactly that branch's serial by one; consequently the serials assigned for
a fixed branch along any sequence of approvals are pairwise strictly
increasing, hence distinct. -/
theorem approval_account_numbering (db : DB) (uid : Nat) (emp : Bool)
    (rid : Nat) (init : RawAmount) (r : ApproveOk) (db' : DB)
    (h : ops_approve_request db uid emp rid init = (Except.ok r, db')) :
    (∃ ar br, findRequest db rid = some ar ∧
      findBranch db ar.branch_id = some br ∧
      r.account_no = br.code ++ toString (branchSerial db br.id) ∧
      (findSeq db br.id = none → branchSerial db br.id = 1000000001) ∧
      branchSerial db' br.id = branchSerial db br.id + 1) ∧
    ∀ (ins : List ApproveIn) (bid : Nat),
      List.Pairwise (fun a b => a < b) (assignedSerials db bid ins) := by
  constructor
  · obtain ⟨ar, br, h1, h2, h3, h4, _⟩ :=
      ops_approve_request_serial db uid emp rid init r db' h
    refine ⟨ar, br, h1, h2, h3, ?_, h4⟩
    intro hn
    unfold branchSerial
    rw [hn]
  · intro ins bid
    exact assignedSerials_pairwise ins db bid

/-- Witness for C6: approving the pending request of cdb (branch 1, no
sequence row yet) assigns B001 ++ 1000000001 and bumps the serial. -/
theorem approval_account_numbering_witness :
    (∃ ar br, findRequest cdb 1 = some ar ∧
      findBranch cdb ar.branch_id = some br ∧
      wr6.account_no = br.code ++ toString (branchSerial cdb br.id) ∧
      (findSeq cdb br.id = none → branchSerial cdb br.id = 1000000001) ∧
      branchSerial (ops_approve_request cdb 3 true 1 (RawAmount.val 5000)).2
          br.id = branchSerial cdb br.id + 1) ∧
    ∀ (ins : List ApproveIn) (bid : Nat),
      List.Pairwise (fun a b => a < b) (assignedSerials cdb bid ins) :=
  approval_account_numbering cdb 3 true 1 (RawAmount.val 5000) wr6
    (ops_approve_request cdb 3 true 1 (RawAmount.val 5000)).2 (by decide)

lemma initAmt_of_parse (init : RawAmount) (amt : Int)
    (h : (match init with
          | RawAmount.missing => some (0 : Int)
          | RawAmount.bad => none
          | RawAmount.val v => some v) = some amt) :
    amt = initAmtOf init := by
  cases init with
  | missing => cases h; rfl
  | bad => cases h
  | val v => cases h; rfl

/-- C10: a successful approval creates exactly one new Account, immediately
ACTIVE, and marks the request APPROVED; with a zero or omitted
initial_deposit the ledger is untouched (no Transaction, no Ledger Entries),
and with a strictly positive one exactly one two-entry DEPOSIT transaction
is posted, debiting the cash-vault bucket and crediting the new account for
the deposit amount (hence balanced). -/
theorem approval_frame (db : DB) (uid : Nat) (emp : Bool) (rid : Nat)
    (init : RawAmount) (r : ApproveOk) (db' : DB)
    (h : ops_approve_request db uid emp rid init = (Except.ok r, db')) :
    ∃ acc, db'.accounts = db.accounts ++ [acc] ∧
      acc.status = AccountStatus.ACTIVE ∧ acc.id = db.next_account_id ∧
      (findRequest db' rid).map (fun q => q.status) =
        some RequestStatus.APPROVED ∧
      r.initial_deposit = initAmtOf init ∧
      (initAmtOf init = 0 →
        db'.entries = db.entries ∧ db'.transactions = db.transactions) ∧
      (0 < initAmtOf init → ∃ tx e1 e2,
        db'.transactions = db.transactions ++ [tx] ∧
        tx.type = TxType.DEPOSIT ∧
        db'.entries = db.entries ++ [e1, e2] ∧
        e1.transaction_id = tx.id ∧ e2.transaction_id = tx.id ∧
        e1.account_id = none ∧ e1.gl_code = some GL_CASH_VAULT ∧
        e1.dr_cr = "DR" ∧ e1.amount = initAmtOf init ∧
        e2.account_id = some acc.id ∧ e2.gl_code = none ∧
        e2.dr_cr = "CR" ∧ e2.amount = initAmtOf init) := by
  unfold ops_approve_request at h
  repeat' split at h
  all_goals try (simp only [Prod.mk.injEq] at h)
  all_goals try (exact Except.noConfusion h.1)
  case isFalse.h_2.isFalse.h_2.isFalse.h_2.h_1
      hemp x3 amt hamt hneg x2 ar har hpend x1 br hbr x0 s hs =>
    obtain ⟨hno, hinit, _, haccs, hid, hreqs, hz, hp⟩ :=
      approveFinish_spec _ _ _ _ _ _ _ _ _ _ h
    have hia := initAmt_of_parse init amt hamt
    refine ⟨_, haccs, rfl, rfl, ?_, by rw [hinit, hia], ?_, ?_⟩
    · unfold findRequest
      rw [hreqs, find?_updateFirst_self (fun (q : AccountRequest) => q.id == rid)
        (fun (q : AccountRequest) => { q with status := RequestStatus.APPROVED })
        (fun a => rfl)]
      unfold findRequest at har
      rw [har]
      rfl
    · intro h0
      exact hz (by omega)
    · intro h0
      obtain ⟨htx, hes⟩ := hp (by omega)
      exact ⟨_, _, _, htx, rfl, hes, rfl, rfl, rfl, rfl, rfl, by rw [hia],
        rfl, rfl, rfl, by rw [hia]⟩
  case isFalse.h_2.isFalse.h_2.isFalse.h_2.h_2
      hemp x3 amt hamt hneg x2 ar har hpend x1 br hbr x0 hs =>
    obtain ⟨hno, hinit, _, haccs, hid, hreqs, hz, hp⟩ :=
      approveFinish_spec _ _ _ _ _ _ _ _ _ _ h
    have hia := initAmt_of_parse init amt hamt
    refine ⟨_, haccs, rfl, rfl, ?_, by rw [hinit, hia], ?_, ?_⟩
    · unfold findRequest
      rw [hreqs, find?_updateFirst_self (fun (q : AccountRequest) => q.id == rid)
        (fun (q : AccountRequest) => { q with status := RequestStatus.APPROVED })
        (fun a => rfl)]
      unfold findRequest at har
      rw [har]
      rfl
    · intro h0
      exact hz (by omega)
    · intro h0
      obtain ⟨htx, hes⟩ := hp (by omega)
      exact ⟨_, _, _, htx, rfl, hes, rfl, rfl, rfl, rfl, rfl, by rw [hia],
        rfl, rfl, rfl, by rw [hia]⟩

/-- Witness for C10: approving cdb's pending request with the
initial_deposit omitted creates one ACTIVE account and leaves the ledger
untouched. -/
theorem approval_frame_witness :
    ∃ acc,
      (ops_approve_request cdb 3 true 1 RawAmount.missing).2.accounts =
        cdb.accounts ++ [acc] ∧
      acc.status = AccountStatus.ACTIVE ∧ acc.id = cdb.next_account_id ∧
      (findRequest (ops_approve_request cdb 3 true 1 RawAmount.missing).2 1).map
        (fun q => q.status) = some RequestStatus.APPROVED ∧
      wr10.initial_deposit = initAmtOf RawAmount.missing ∧
      (initAmtOf RawAmount.missing = 0 →
        (ops_approve_request cdb 3 true 1 RawAmount.missing).2.entries =
          cdb.entries ∧
        (ops_approve_request cdb 3 true 1 RawAmount.missing).2.transactions =
          cdb.transactions) ∧
      (0 < initAmtOf RawAmount.missing → ∃ tx e1 e2,
        (ops_approve_request cdb 3 true 1 RawAmount.missing).2.transactions =
          cdb.transactions ++ [tx] ∧
        tx.type = TxType.DEPOSIT ∧
        (ops_approve_request cdb 3 true 1 RawAmount.missing).2.entries =
          cdb.entries ++ [e1, e2] ∧
        e1.transaction_id = tx.id ∧ e2.transaction_id = tx.id ∧
        e1.account_id = none ∧ e1.gl_code = some GL_CASH_VAULT ∧
        e1.dr_cr = "DR" ∧ e1.amount = initAmtOf RawAmount.missing ∧
        e2.account_id = some acc.id ∧ e2.gl_code = none ∧
        e2.dr_cr = "CR" ∧ e2.amount = initAmtOf RawAmount.missing) :=
  approval_frame cdb 3 true 1 RawAmount.missing wr10
    (ops_approve_request cdb 3 true 1 RawAmount.missing).2 (by decide)

lemma rowMatches_iff (accId : Nat) (before : Option Nat) (e : LedgerEntry) :
    rowMatches accId before e = true ↔
      (e.account_id = some accId ∧ ∀ b, before = some b → e.posted_at < b) := by
  unfold rowMatches
  cases before with
  | none => simp
  | some b => simp

/-- C7: the history page selects only the queried account's entries, strictly
earlier than the cursor when one is supplied; it is sorted by posting time
descending with entry id descending as tie-break; its length never exceeds
the limit, where the limit is clamped to [1,100] and defaults to 20; and
whenever the page is not full it contains every qualifying entry (so an
omitted cursor yields all most-recent entries). -/
theorem history_page_spec (db : DB) (accId : Nat) (before : Option Nat)
    (limitArg : Option Int)
    (hTx : ∀ e ∈ db.entries, (findTx db e.transaction_id).isSome = true) :
    1 ≤ clampLimit limitArg ∧ clampLimit limitArg ≤ 100 ∧
    (limitArg = none → clampLimit limitArg = 20) ∧
    (rowsQuery db accId before (clampLimit limitArg)).length ≤
      clampLimit limitArg ∧
    (∀ p ∈ rowsQuery db accId before (clampLimit limitArg),
      p.1.account_id = some accId ∧
        ∀ b, before = some b → p.1.posted_at < b) ∧
    List.Pairwise histRel (rowsQuery db accId before (clampLimit limitArg)) ∧
    ((rowsQuery db accId before (clampLimit limitArg)).length <
        clampLimit limitArg →
      ∀ e ∈ db.entries, e.account_id = some accId →
        (∀ b, before = some b → e.posted_at < b) →
        e ∈ (rowsQuery db accId before (clampLimit limitArg)).map Prod.fst) := by
  refine ⟨?_, ?_, ?_, ?_, ?_, ?_, ?_⟩
  · unfold clampLimit; omega
  · unfold clampLimit
    rcases limitArg with _ | v
    · decide
    · simp only [Option.getD]
      omega
  · intro hn; rw [hn]; decide
  · exact List.length_take_le _ _
  · intro p hp
    unfold rowsQuery at hp
    have hp2 := List.mem_of_mem_take hp
    rw [List.mem_insertionSort] at hp2
    have hp3 := (List.mem_filter.mp hp2).2
    exact (rowMatches_iff accId before p.1).mp hp3
  · unfold rowsQuery
    refine List.Pairwise.sublist (List.take_sublist _ _) ?_
    exact List.sorted_insertionSort histRel _
  · intro hshort e he hacc hbef
    unfold rowsQuery at hshort ⊢
    rw [List.length_take] at hshort
    rw [List.take_of_length_le (by omega)]
    obtain ⟨t, ht⟩ := Option.isSome_iff_exists.mp (hTx e he)
    have hj : (e, t) ∈ db.entries.filterMap (fun e =>
        (findTx db e.transaction_id).map (fun t => (e, t))) := by
      rw [List.mem_filterMap]
      exact ⟨e, he, by rw [ht]; rfl⟩
    have hc : (e, t) ∈ (db.entries.filterMap (fun e =>
        (findTx db e.transaction_id).map (fun t => (e, t)))).filter
          (fun p => rowMatches accId before p.1) := by
      rw [List.mem_filter]
      exact ⟨hj, (rowMatches_iff accId before e).mpr ⟨hacc, hbef⟩⟩
    rw [List.mem_map]
    exact ⟨(e, t), (List.mem_insertionSort histRel).mpr hc, rfl⟩

/-- Witness for C7 at a concrete store, cursor and limit. -/
theorem history_page_spec_witness :
    1 ≤ clampLimit none ∧ clampLimit none ≤ 100 ∧
    (none = (none : Option Int) → clampLimit none = 20) ∧
    (rowsQuery cdb 1 none (clampLimit none)).length ≤ clampLimit none ∧
    (∀ p ∈ rowsQuery cdb 1 none (clampLimit none),
      p.1.account_id = some 1 ∧
        ∀ b, (none : Option Nat) = some b → p.1.posted_at < b) ∧
    List.Pairwise histRel (rowsQuery cdb 1 none (clampLimit none)) ∧
    ((rowsQuery cdb 1 none (clampLimit none)).length < clampLimit none →
      ∀ e ∈ cdb.entries, e.account_id = some 1 →
        (∀ b, (none : Option Nat) = some b → e.posted_at < b) →
        e ∈ (rowsQuery cdb 1 none (clampLimit none)).map Prod.fst) :=
  history_page_spec cdb 1 none none (by decide)

lemma nextBefore_eq (rows : List (LedgerEntry × Transaction)) :
    nextBefore rows = (rows.getLast?).map (fun p => p.1.posted_at) := by
  unfold nextBefore
  cases rows.getLast? <;> rfl

lemma mkItem_posted_at (accNo : String) (cp : CpInfo) (le : LedgerEntry)
    (tx : Transaction) : (mkItem accNo cp le tx).posted_at = le.posted_at := by
  unfold mkItem
  split <;> rfl

/-- Counterexample to C8: a page of one item against the default limit 20 is
short of the limit, yet the returned cursor is non-empty (it is the
timestamp of that last item); the source only leaves the cursor empty when
the page is empty. -/
theorem short_page_nonempty_cursor :
    (rowsQuery cdb 1 none (clampLimit none)).length < clampLimit none ∧
      nextBefore (rowsQuery cdb 1 none (clampLimit none)) = some 1 := by
  decide

/-- C8 amended: the returned cursor is the posting timestamp of the last
returned item, and it is empty exactly when the page is empty (not merely
short). -/
theorem history_cursor_amended (db : DB) (uid : Nat) (aid : Nat)
    (before : Option Nat) (lim : Option Int) (pg : HistoryPage)
    (h : account_transactions db uid aid before lim = Except.ok pg) :
    (pg.next_before = none ↔ pg.items = []) ∧
    (∀ it, pg.items.getLast? = some it →
      pg.next_before = some it.posted_at) := by
  unfold account_transactions at h
  repeat' split at h
  all_goals try (exact Except.noConfusion h)
  cases h
  constructor
  · rw [nextBefore_eq]
    simp [Option.map_eq_none', List.getLast?_eq_none_iff, List.map_eq_nil_iff]
  · intro it hit
    rw [List.getLast?_map] at hit
    rw [nextBefore_eq]
    cases hlast : (rowsQuery db aid before (clampLimit lim)).getLast? with
    | none => rw [hlast] at hit; cases hit
    | some p =>
      rw [hlast] at hit
      cases hit
      simp [mkItem_posted_at]

/-- Witness for C8 amended at a concrete store. -/
theorem history_cursor_amended_witness :
    (cpg.next_before = none ↔ cpg.items = []) ∧
    (∀ it, cpg.items.getLast? = some it →
      cpg.next_before = some it.posted_at) :=
  history_cursor_amended cdb 1 1 none none cpg (by decide)

/-- Counterexample to C9: although a qualifying customer-account sibling
exists on the same transaction (entry 3, account 2, which resolves), the
code reports the general-ledger sibling, because it picks the qualifying
sibling with the smallest id rather than preferring a customer account. -/
theorem counterparty_no_account_preference :
    e9acc ∈ db9.entries ∧ siblingPred e9q e9acc = true ∧
      e9acc.account_id = some 2 ∧ (findAccount db9 2).isSome = true ∧
      format_counterparty db9 e9q =
        { is_acc := false, label := "CASH", acc_no := none,
          gl := some GL_CASH_VAULT } := by
  decide

/-- C9 amended: the counterparty of a history item is resolved from the
qualifying sibling entry with the smallest id — reported as that sibling's
customer account when it references one (or a placeholder when the account
row is missing), else as its general-ledger code — with no sibling meaning
an unknown counterparty; the from/to labels come from the queried entry's
own direction: CREDIT means funds flow from the counterparty to this
account, DEBIT the reverse. -/
theorem counterparty_resolution_amended (db : DB) (le : LedgerEntry) :
    (db.entries.filter (siblingPred le) = [] →
      format_counterparty db le =
        { is_acc := false, label := "N/A", acc_no := none, gl := none }) ∧
    (db.entries.filter (siblingPred le) ≠ [] →
      ∃ s, s ∈ db.entries ∧ siblingPred le s = true ∧
        (∀ s2 ∈ db.entries, siblingPred le s2 = true → s.id ≤ s2.id) ∧
        format_counterparty db le = cpInterp db s) ∧
    (∀ accNo cp tx, (strUpper le.dr_cr == "CR") = true →
      (mkItem accNo cp le tx).fromLabel = cp.label ∧
        (mkItem accNo cp le tx).toLabel = accNo) ∧
    (∀ accNo cp tx, (strUpper le.dr_cr == "CR") = false →
      (mkItem accNo cp le tx).fromLabel = accNo ∧
        (mkItem accNo cp le tx).toLabel = cp.label) := by
  refine ⟨?_, ?_, ?_, ?_⟩
  · intro hemp
    unfold format_counterparty
    rw [hemp]
    rfl
  · intro hne
    have hperm := List.perm_insertionSort idLe (db.entries.filter (siblingPred le))
    cases hsort : (db.entries.filter (siblingPred le)).insertionSort idLe with
    | nil =>
      rw [hsort] at hperm
      exact absurd hperm.symm.eq_nil hne
    | cons s rest =>
      rw [hsort] at hperm
      have hs_mem : s ∈ db.entries.filter (siblingPred le) :=
        hperm.mem_iff.mp (List.mem_cons_self s rest)
      have hs1 := List.mem_filter.mp hs_mem
      have hsorted := List.sorted_insertionSort idLe
        (db.entries.filter (siblingPred le))
      rw [hsort] at hsorted
      refine ⟨s, hs1.1, hs1.2, ?_, ?_⟩
      · intro s2 hs2 hp2
        have hs2f : s2 ∈ db.entries.filter (siblingPred le) :=
          List.mem_filter.mpr ⟨hs2, hp2⟩
        have hs2s : s2 ∈ s :: rest := hperm.mem_iff.mpr hs2f
        rcases List.mem_cons.mp hs2s with h1 | h1
        · rw [h1]
        · exact List.rel_of_sorted_cons hsorted s2 h1
      · unfold format_counterparty
        rw [hsort]
        rfl
  · intro accNo cp tx hcr
    unfold mkItem
    rw [if_pos hcr]
    exact ⟨rfl, rfl⟩
  · intro accNo cp tx hcr
    unfold mkItem
    rw [if_neg (by simp [hcr])]
    exact ⟨rfl, rfl⟩

/-- Witness for C9 amended: on the counterexample store the chosen sibling
is the minimal-id qualifying one. -/
theorem counterparty_resolution_amended_witness :
    ∃ s, s ∈ db9.entries ∧ siblingPred e9q s = true ∧
      (∀ s2 ∈ db9.entries, siblingPred e9q s2 = true → s.id ≤ s2.id) ∧
      format_counterparty db9 e9q = cpInterp db9 s :=
  (counterparty_resolution_amended db9 e9q).2.1 (by decide)

end YourBank
